import Mathlib

/-!
Verification development for the GitHub repository-aggregation pipeline of
`api/github_repos.py` (class `GitHubReposFetcher`).

The Python code is shallowly embedded: every fetcher becomes a pure Lean
function over a `World` describing the responses of the GitHub REST
endpoints; the dicts appended by the fetchers become `RepoRecord` values;
Python's stable in-place `list.sort(key=lambda x: (x['stars'],
x['updated_at']), reverse=True)` is modelled by `List.insertionSort` with
the descending lexicographic order on `(stars, updated_at)` (stable sorts
agree extensionally, and Mathlib's `insertionSort` is stable); the in-place
mutation of the argument list is modelled by a companion function returning
the state of the caller's list after the call.
-/

/-- One repository dict as appended by the fetchers: the exact keys produced
by `GitHubReposFetcher` (`name`, `full_name`, `description`, `html_url`,
`language`, `stars`, `forks`, `updated_at`, `owner`, `is_owner`,
`is_collaborator`, `is_fork`, and the optional `relationship` key, absent on
plain owned records). -/
structure RepoRecord where
  name : String
  full_name : String
  description : Option String
  html_url : String
  language : Option String
  stars : Nat
  forks : Nat
  updated_at : String
  owner : String
  is_owner : Bool
  is_collaborator : Bool
  is_fork : Bool
  relationship : Option String
deriving Repr, DecidableEq

/-- The fields of an embedded `source` (upstream) object of a GitHub repo
JSON payload that the code reads: `name`, `full_name`, `description`,
`html_url`, `language`, `stargazers_count`, `forks_count`, `updated_at`,
`owner.login`, `fork`. -/
structure SourceInfo where
  name : String
  full_name : String
  description : Option String
  html_url : String
  language : Option String
  stargazers_count : Nat
  forks_count : Nat
  updated_at : String
  owner_login : String
  fork : Bool
deriving Repr, DecidableEq

/-- The fields of a GitHub repo JSON payload that the code reads, with the
optional embedded `source` object (`'source' in repo and repo['source']`). -/
structure RepoJson where
  name : String
  full_name : String
  description : Option String
  html_url : String
  language : Option String
  stargazers_count : Nat
  forks_count : Nat
  updated_at : String
  owner_login : String
  fork : Bool
  source : Option SourceInfo
deriving Repr, DecidableEq

/-- One entry of a `/users/{username}/events/public` page: the code reads
`event['type']` and, when the `repo` key is present, `event['repo']['name']`. -/
structure EventJson where
  type : String
  repo_name : Option String
deriving Repr, DecidableEq

/-- A paginated endpoint response: the HTTP status and the decoded JSON
array body (used when the status is 200). -/
structure Page where
  status : Nat
  body : List RepoJson
deriving Repr

/-- A `/users/{username}/events/public` page response. -/
structure EventsPage where
  status : Nat
  body : List EventJson
deriving Repr

/-- The `/user/orgs` response: HTTP status and the logins of the returned
organizations. -/
structure OrgsResp where
  status : Nat
  body : List String
deriving Repr

/-- The observable behaviour of the outside world during one aggregation
run: the `GITHUB_TOKEN` environment fallback and the responses of each
GitHub endpoint the fetchers consult. -/
structure World where
  envToken : Option String
  ownedPages : Nat → Page
  eventsPages : Nat → EventsPage
  details : String → Option RepoJson
  orgsResp : OrgsResp
  orgRepoPages : String → Nat → Page
  collabPages : Nat → Page
  starredPages : Nat → Page

/-! ## Deduplicator / Ranker (`_deduplicate_repos`) -/

/-- Python's `<=` on strings, as used when the sort key tuples
`(stars, updated_at)` tie on `stars`: lexicographic comparison of the code
points. -/
def lexLe : List Char → List Char → Bool
  | [], _ => true
  | _ :: _, [] => false
  | a :: as, b :: bs =>
    if a.toNat < b.toNat then true
    else if b.toNat < a.toNat then false
    else lexLe as bs

/-- Python's `s <= t` on the `updated_at` ISO-8601 strings. -/
def strLe (s t : String) : Bool :=
  lexLe s.data t.data

theorem lexLe_total : ∀ as bs : List Char, lexLe as bs = true ∨ lexLe bs as = true
  | [], _ => Or.inl rfl
  | _ :: _, [] => Or.inr rfl
  | a :: as, b :: bs => by
    by_cases h1 : a.toNat < b.toNat
    · exact Or.inl (by simp [lexLe, h1])
    · by_cases h2 : b.toNat < a.toNat
      · exact Or.inr (by simp [lexLe, h2])
      · rcases lexLe_total as bs with h | h
        · exact Or.inl (by simp [lexLe, h1, h2, h])
        · exact Or.inr (by simp [lexLe, h1, h2, h])

theorem lexLe_trans : ∀ as bs cs : List Char,
    lexLe as bs = true → lexLe bs cs = true → lexLe as cs = true
  | [], _, _ => fun _ _ => rfl
  | _ :: _, [], _ => fun h _ => by simp [lexLe] at h
  | _ :: _, _ :: _, [] => fun _ h => by simp [lexLe] at h
  | a :: as, b :: bs, c :: cs => fun h1 h2 => by
    simp only [lexLe] at h1 h2 ⊢
    split at h1
    · rename_i hab
      split at h2
      · rename_i hbc
        simp [Nat.lt_trans hab hbc]
      · rename_i hbc
        split at h2
        · simp at h2
        · rename_i hcb
          have : b.toNat = c.toNat := by omega
          simp [this ▸ hab]
    · rename_i hab
      split at h1
      · simp at h1
      · rename_i hba
        have hab' : a.toNat = b.toNat := by omega
        split at h2
        · rename_i hbc
          simp [hab' ▸ hbc]
        · rename_i hbc
          split at h2
          · simp at h2
          · rename_i hcb
            have hbc' : b.toNat = c.toNat := by omega
            have hac : ¬ a.toNat < c.toNat := by omega
            have hca : ¬ c.toNat < a.toNat := by omega
            simp only [hac, if_false, hca, if_false, ite_self]
            exact lexLe_trans as bs cs h1 h2

theorem strLe_total (s t : String) : strLe s t = true ∨ strLe t s = true :=
  lexLe_total s.data t.data

theorem strLe_trans {s t r : String} (h1 : strLe s t = true) (h2 : strLe t r = true) :
    strLe s r = true :=
  lexLe_trans s.data t.data r.data h1 h2

/-- The sort order used by `_deduplicate_repos`: Python's
`repositories.sort(key=lambda x: (x['stars'], x['updated_at']),
reverse=True)` places `a` weakly before `b` exactly when the key of `a` is
at least the key of `b` in the lexicographic order on
`(stars, updated_at)`; ties keep insertion order (Python's sort is
stable). -/
def repoOrder (a b : RepoRecord) : Prop :=
  b.stars < a.stars ∨ (b.stars = a.stars ∧ strLe b.updated_at a.updated_at = true)

instance : DecidableRel repoOrder := fun a b =>
  inferInstanceAs
    (Decidable (b.stars < a.stars ∨ (b.stars = a.stars ∧ strLe b.updated_at a.updated_at = true)))

instance : IsTotal RepoRecord repoOrder where
  total a b := by
    unfold repoOrder
    rcases Nat.lt_trichotomy a.stars b.stars with h | h | h
    · exact Or.inr (Or.inl h)
    · rcases strLe_total b.updated_at a.updated_at with h2 | h2
      · exact Or.inl (Or.inr ⟨h.symm, h2⟩)
      · exact Or.inr (Or.inr ⟨h, h2⟩)
    · exact Or.inl (Or.inl h)

instance : IsTrans RepoRecord repoOrder where
  trans a b c hab hbc := by
    unfold repoOrder at *
    rcases hab with h1 | ⟨e1, s1⟩
    · rcases hbc with h2 | ⟨e2, s2⟩
      · exact Or.inl (h2.trans h1)
      · exact Or.inl (e2 ▸ h1)
    · rcases hbc with h2 | ⟨e2, s2⟩
      · exact Or.inl (e1 ▸ h2)
      · exact Or.inr ⟨e2.trans e1, strLe_trans s2 s1⟩

/-- The walk of `_deduplicate_repos` over the sorted list: keep the first
occurrence of each `full_name`, tracking the `seen` set. -/
def dedupWalk : List RepoRecord → List String → List RepoRecord
  | [], _ => []
  | r :: rs, seen =>
    if r.full_name ∈ seen then dedupWalk rs seen
    else r :: dedupWalk rs (r.full_name :: seen)

/-- `GitHubReposFetcher._deduplicate_repos`: sort by `(stars, updated_at)`
descending (stable), then keep the first occurrence of each `full_name`.
This is the value the method returns. -/
def deduplicate_repos (repositories : List RepoRecord) : List RepoRecord :=
  dedupWalk (repositories.insertionSort repoOrder) []

/-- The state of the caller's `repositories` list after
`_deduplicate_repos` returns: `repositories.sort(...)` sorts the argument
list in place, so the caller's list ends up sorted. -/
def deduplicate_repos_input_after (repositories : List RepoRecord) : List RepoRecord :=
  repositories.insertionSort repoOrder

/-! ## Record constructors (the dict literals of each fetcher) -/

/-- The dict appended for each repo by `_fetch_owned_repos` (no
`relationship` key; forks are marked as collaborator repos). -/
def mkOwnedRecord (r : RepoJson) : RepoRecord :=
  { name := r.name, full_name := r.full_name, description := r.description,
    html_url := r.html_url, language := r.language, stars := r.stargazers_count,
    forks := r.forks_count, updated_at := r.updated_at, owner := r.owner_login,
    is_owner := true, is_collaborator := r.fork, is_fork := r.fork,
    relationship := none }

/-- The dict appended for a fork's upstream ("base") repository, built from
the embedded or detail-fetched `source` object, with the given
`relationship` tag (`base_of_fork` or `base_of_collaborator_fork`). -/
def mkBaseRecord (s : SourceInfo) (rel : String) : RepoRecord :=
  { name := s.name, full_name := s.full_name, description := s.description,
    html_url := s.html_url, language := s.language, stars := s.stargazers_count,
    forks := s.forks_count, updated_at := s.updated_at, owner := s.owner_login,
    is_owner := false, is_collaborator := true, is_fork := s.fork,
    relationship := some rel }

/-- The dict appended by `_fetch_contributed_repos` from a detail lookup of
an event's repository. -/
def mkContributedRecord (r : RepoJson) (username : String) : RepoRecord :=
  { name := r.name, full_name := r.full_name, description := r.description,
    html_url := r.html_url, language := r.language, stars := r.stargazers_count,
    forks := r.forks_count, updated_at := r.updated_at, owner := r.owner_login,
    is_owner := r.owner_login == username,
    is_collaborator := !(r.owner_login == username), is_fork := r.fork,
    relationship := some (if r.owner_login == username then "owner" else "contributor") }

/-- The dict appended for each repo by `_fetch_collaborator_repos`. -/
def mkCollaboratorRecord (r : RepoJson) (username : String) : RepoRecord :=
  { name := r.name, full_name := r.full_name, description := r.description,
    html_url := r.html_url, language := r.language, stars := r.stargazers_count,
    forks := r.forks_count, updated_at := r.updated_at, owner := r.owner_login,
    is_owner := r.owner_login == username, is_collaborator := true,
    is_fork := r.fork,
    relationship := some (if r.owner_login == username then "owner" else "collaborator") }

/-- The dict appended for each non-owned repo by `_fetch_organization_repos`. -/
def mkOrgRecord (r : RepoJson) : RepoRecord :=
  { name := r.name, full_name := r.full_name, description := r.description,
    html_url := r.html_url, language := r.language, stars := r.stargazers_count,
    forks := r.forks_count, updated_at := r.updated_at, owner := r.owner_login,
    is_owner := false, is_collaborator := true, is_fork := r.fork,
    relationship := some "organization_member" }

/-- The dict appended for each non-owned repo by `_fetch_other_repos`. -/
def mkStarredRecord (r : RepoJson) : RepoRecord :=
  { name := r.name, full_name := r.full_name, description := r.description,
    html_url := r.html_url, language := r.language, stars := r.stargazers_count,
    forks := r.forks_count, updated_at := r.updated_at, owner := r.owner_login,
    is_owner := false, is_collaborator := false, is_fork := r.fork,
    relationship := some "starred" }

/-! ## Owned fetcher (`_fetch_owned_repos`) -/

/-- Upstream resolution inside `_fetch_owned_repos`: use the embedded
`source` object when present (`'source' in repo and repo['source']`),
otherwise perform one detail lookup of the fork and read its `source`. -/
def resolveBase (w : World) (r : RepoJson) : Option SourceInfo :=
  match r.source with
  | some s => some s
  | none =>
    match w.details r.full_name with
    | some d => d.source
    | none => none

/-- Fork handling of `_fetch_owned_repos` for one repo: when the repo is a
fork and its upstream resolves to a `full_name` not yet in the
per-invocation `base_repos_added` set, append one `base_of_fork` record and
extend the set. -/
def ownedInject (w : World) (r : RepoJson) (base : List String) :
    List RepoRecord × List String :=
  if r.fork then
    match resolveBase w r with
    | some s =>
      if s.full_name ∈ base then ([], base)
      else ([mkBaseRecord s "base_of_fork"], s.full_name :: base)
    | none => ([], base)
  else ([], base)

/-- The `for repo in repos` body of `_fetch_owned_repos` over one page:
append the owned record for each repo, followed by any fork-upstream
injection, threading `base_repos_added` through the page. -/
def processOwnedPage (w : World) : List RepoJson → List String → List RepoRecord × List String
  | [], base => ([], base)
  | r :: rs, base =>
    let step := ownedInject w r base
    let rest := processOwnedPage w rs step.2
    (mkOwnedRecord r :: (step.1 ++ rest.1), rest.2)

theorem processOwnedPage_length (w : World) (rs : List RepoJson) (base : List String) :
    rs.length ≤ (processOwnedPage w rs base).1.length := by
  induction rs generalizing base with
  | nil => simp [processOwnedPage]
  | cons r rs ih =>
    simp only [processOwnedPage, List.length_cons, List.length_append]
    have := ih (ownedInject w r base).2
    omega

/-- The `while len(repositories) < 100` pagination loop of
`_fetch_owned_repos`: stop on a non-200 status or an empty page, otherwise
process the page and continue with the next page number. -/
def fetchOwnedLoop (w : World) (u : String) (page : Nat) (base : List String)
    (acc : List RepoRecord) : List RepoRecord :=
  if h : acc.length < 100 then
    let p := w.ownedPages page
    if p.status ≠ 200 then acc
    else if hb : p.body.isEmpty then acc
    else
      let pr := processOwnedPage w p.body base
      fetchOwnedLoop w u (page + 1) pr.2 (acc ++ pr.1)
  else acc
termination_by 100 - acc.length
decreasing_by
  have h1 := processOwnedPage_length w (w.ownedPages page).body base
  have h2 : (w.ownedPages page).body ≠ [] := by
    simpa [List.isEmpty_iff] using hb
  have h3 : 0 < (w.ownedPages page).body.length := List.length_pos.mpr h2
  simp only [List.length_append]
  omega

/-- `_fetch_owned_repos` run on the fresh `owned_repositories` list of one
aggregation, starting at page 1 with an empty `base_repos_added` set. -/
def fetchOwnedRepos (w : World) (u : String) : List RepoRecord :=
  fetchOwnedLoop w u 1 [] []

/-! ## Contributed fetcher (`_fetch_contributed_repos`) -/

/-- The event-type filter of `_fetch_contributed_repos`:
`event['type'] in ['PushEvent', 'PullRequestEvent', 'IssuesEvent', 'CreateEvent']`. -/
def eventTypeOk (t : String) : Bool :=
  t == "PushEvent" || t == "PullRequestEvent" || t == "IssuesEvent" || t == "CreateEvent"

/-- The `for event in events` body of `_fetch_contributed_repos` over one
events page: for each qualifying event whose repo name is new, record the
name in `contributed_repos` and append a record when the detail lookup
succeeds. -/
def processEventsPage (w : World) (u : String) :
    List EventJson → List String → List RepoRecord × List String
  | [], seen => ([], seen)
  | e :: es, seen =>
    match e.repo_name with
    | some rn =>
      if eventTypeOk e.type then
        if rn ∈ seen then processEventsPage w u es seen
        else
          match w.details rn with
          | some d =>
            let rest := processEventsPage w u es (rn :: seen)
            (mkContributedRecord d u :: rest.1, rest.2)
          | none => processEventsPage w u es (rn :: seen)
      else processEventsPage w u es seen
    | none => processEventsPage w u es seen

/-- The `while len(contributed_repos) < 50 and page <= 3` loop of
`_fetch_contributed_repos`, appending into the caller's collaborator
bucket `acc`. -/
def fetchContributedLoop (w : World) (u : String) (page : Nat) (seen : List String)
    (acc : List RepoRecord) : List RepoRecord :=
  if seen.length < 50 ∧ page ≤ 3 then
    let p := w.eventsPages page
    if p.status ≠ 200 then acc
    else if p.body.isEmpty then acc
    else
      let pr := processEventsPage w u p.body seen
      fetchContributedLoop w u (page + 1) pr.2 (acc ++ pr.1)
  else acc
termination_by 4 - page
decreasing_by omega

/-! ## Collaborator fetcher (`_fetch_collaborator_repos`) -/

/-- Fork handling of `_fetch_collaborator_repos` for one repo: a fork always
triggers a detail lookup; when the detail payload carries a `source` whose
`full_name` is not yet in the per-invocation `base_repos_added` set, append
one `base_of_collaborator_fork` record and extend the set. -/
def collabInject (w : World) (r : RepoJson) (base : List String) :
    List RepoRecord × List String :=
  if r.fork then
    match w.details r.full_name with
    | some d =>
      match d.source with
      | some s =>
        if s.full_name ∈ base then ([], base)
        else ([mkBaseRecord s "base_of_collaborator_fork"], s.full_name :: base)
      | none => ([], base)
    | none => ([], base)
  else ([], base)

/-- The `for repo in repos` body of `_fetch_collaborator_repos` over one
page. -/
def processCollabPage (w : World) (u : String) :
    List RepoJson → List String → List RepoRecord × List String
  | [], base => ([], base)
  | r :: rs, base =>
    let step := collabInject w r base
    let rest := processCollabPage w u rs step.2
    (mkCollaboratorRecord r u :: (step.1 ++ rest.1), rest.2)

/-- The `while len(repositories) < 50 and page <= 5` loop of
`_fetch_collaborator_repos`, appending into the shared collaborator bucket
`acc`; the second component counts the page requests the invocation
performs. -/
def fetchCollaboratorLoop (w : World) (u : String) (page : Nat) (base : List String)
    (acc : List RepoRecord) : List RepoRecord × Nat :=
  if acc.length < 50 ∧ page ≤ 5 then
    let p := w.collabPages page
    if p.status ≠ 200 then (acc, 1)
    else if p.body.isEmpty then (acc, 1)
    else
      let pr := processCollabPage w u p.body base
      let rest := fetchCollaboratorLoop w u (page + 1) pr.2 (acc ++ pr.1)
      (rest.1, rest.2 + 1)
  else (acc, 0)
termination_by 6 - page
decreasing_by omega

/-- `_fetch_collaborator_repos` run on the shared collaborator bucket. -/
def fetchCollaboratorRepos (w : World) (u : String) (bucket : List RepoRecord) :
    List RepoRecord :=
  (fetchCollaboratorLoop w u 1 [] bucket).1

/-! ## Organization fetcher (`_fetch_organization_repos`) -/

/-- The `while len(repositories) < 100 and page <= 3` inner loop of
`_fetch_organization_repos` for one organization: append every org repo not
owned by the queried username. -/
def fetchOrgPagesLoop (w : World) (u : String) (org : String) (page : Nat)
    (acc : List RepoRecord) : List RepoRecord :=
  if acc.length < 100 ∧ page ≤ 3 then
    let p := w.orgRepoPages org page
    if p.status ≠ 200 then acc
    else if p.body.isEmpty then acc
    else
      fetchOrgPagesLoop w u org (page + 1)
        (acc ++ (p.body.filter (fun r => r.owner_login ≠ u)).map mkOrgRecord)
  else acc
termination_by 4 - page
decreasing_by omega

/-- `_fetch_organization_repos`: list the user's organizations (a non-200
response returns with no append) and walk the repos of the first 10. -/
def fetchOrganizationRepos (w : World) (u : String) (bucket : List RepoRecord) :
    List RepoRecord :=
  if w.orgsResp.status ≠ 200 then bucket
  else (w.orgsResp.body.take 10).foldl (fun acc org => fetchOrgPagesLoop w u org 1 acc) bucket

/-! ## Starred fetcher (`_fetch_other_repos`) -/

/-- The `while len(repositories) < 30 and page <= 3` loop of
`_fetch_other_repos`: append every starred repo not owned by the queried
username. -/
def fetchStarredLoop (w : World) (u : String) (page : Nat)
    (acc : List RepoRecord) : List RepoRecord :=
  if acc.length < 30 ∧ page ≤ 3 then
    let p := w.starredPages page
    if p.status ≠ 200 then acc
    else if p.body.isEmpty then acc
    else
      fetchStarredLoop w u (page + 1)
        (acc ++ (p.body.filter (fun r => r.owner_login ≠ u)).map mkStarredRecord)
  else acc
termination_by 4 - page
decreasing_by omega

/-! ## Aggregator (`fetch_user_repositories`) -/

/-- Token resolution at the top of `fetch_user_repositories`: the supplied
token, falling back to the `GITHUB_TOKEN` environment variable. -/
def effectiveToken (w : World) (github_token : Option String) : Option String :=
  match github_token with
  | some t => some t
  | none => w.envToken

/-- The raw collaborator bucket produced by one aggregation run before
deduplication: Contributed always runs; Collaborator and Organization run
only when a token is available. -/
def collabBucketRaw (w : World) (u : String) (tok : Option String) : List RepoRecord :=
  let c1 := fetchContributedLoop w u 1 [] []
  match tok with
  | some _ => fetchOrganizationRepos w u (fetchCollaboratorRepos w u c1)
  | none => c1

/-- The raw `other_repositories` bucket before deduplication: Starred runs
only when a token is available. -/
def otherBucketRaw (w : World) (u : String) (tok : Option String) : List RepoRecord :=
  match tok with
  | some _ => fetchStarredLoop w u 1 []
  | none => []

/-- `GitHubReposFetcher.fetch_user_repositories`: resolve the token, run
Owned and Contributed, run Collaborator, Organization and Starred only when
a token is available, then deduplicate each bucket independently. -/
def fetch_user_repositories (w : World) (github_username : String)
    (github_token : Option String) :
    List RepoRecord × List RepoRecord × List RepoRecord :=
  let tok := effectiveToken w github_token
  (deduplicate_repos (fetchOwnedRepos w github_username),
   deduplicate_repos (collabBucketRaw w github_username tok),
   deduplicate_repos (otherBucketRaw w github_username tok))

/-! ## Refresh scheduler (`update_user_github_repos*`, `get_user_github_repos`)

The user's Supabase `profiles` row is modelled by `ProfileRow`; every
profile column this module never touches is abstracted into the single
`rest` component. Timestamps are seconds (`datetime.timestamp()` values) as
integers; a `none` value models a SQL NULL. The store holds one row per
user; the functions below act on the queried user's row
(`Option ProfileRow`, `none` when no profile exists). -/

structure ProfileRow where
  github_repos : List RepoRecord
  github_repos_updated_at : Option Int
  github_collaborator_repos : List RepoRecord
  github_collaborator_repos_updated_at : Option Int
  github_username : String
  rest : Nat
deriving Repr, DecidableEq

/-- The outcome of a scheduler entry point: the returned boolean, whether a
GitHub fetch was performed, and the state of the user's profile row after
the call. -/
structure SchedulerResult where
  ok : Bool
  fetched : Bool
  db : Option ProfileRow
deriving Repr, DecidableEq

/-- The `update_data` dict both scheduler entry points write: exactly the
columns `github_repos`, `github_repos_updated_at`,
`github_collaborator_repos`, `github_collaborator_repos_updated_at` and
`github_username`; every other column (`rest`) is left as it was. -/
def applyProfileUpdate (row : ProfileRow) (owned collab : List RepoRecord)
    (now : Int) (u : String) : ProfileRow :=
  { row with
    github_repos := owned,
    github_repos_updated_at := some now,
    github_collaborator_repos := collab,
    github_collaborator_repos_updated_at := some now,
    github_username := u }

/-- `GitHubReposFetcher.update_user_github_repos_initial`: fail fast when
the profile row does not exist; otherwise fetch unconditionally and write
the five columns. -/
def update_user_github_repos_initial (w : World) (db : Option ProfileRow)
    (u : String) (tok : Option String) (now : Int) : SchedulerResult :=
  match db with
  | none => { ok := false, fetched := false, db := none }
  | some row =>
    let r := fetch_user_repositories w u tok
    { ok := true, fetched := true,
      db := some (applyProfileUpdate row r.1 r.2.1 now u) }

/-- `GitHubReposFetcher.update_user_github_repos` (the Regular entry
point): read `github_repos_updated_at`; when the row exists and the elapsed
time since that timestamp is under `24 * 3600` seconds, return success with
no fetch and no write; otherwise fetch and write. When no row exists the
throttle check is skipped and the write matches no row. -/
def update_user_github_repos (w : World) (db : Option ProfileRow)
    (u : String) (tok : Option String) (now : Int) : SchedulerResult :=
  match db with
  | some row =>
    match row.github_repos_updated_at with
    | some t =>
      if now - t < 24 * 3600 then { ok := true, fetched := false, db := some row }
      else
        let r := fetch_user_repositories w u tok
        { ok := true, fetched := true,
          db := some (applyProfileUpdate row r.1 r.2.1 now u) }
    | none =>
      let r := fetch_user_repositories w u tok
      { ok := true, fetched := true,
        db := some (applyProfileUpdate row r.1 r.2.1 now u) }
  | none =>
    let _ := fetch_user_repositories w u tok
    { ok := true, fetched := true, db := none }

/-- `GitHubReposFetcher.get_user_github_repos`: select `github_repos` and
`github_collaborator_repos` from the profile row and return them with an
empty third list; a missing row yields three empty lists. -/
def get_user_github_repos (db : Option ProfileRow) :
    List RepoRecord × List RepoRecord × List RepoRecord :=
  match db with
  | some row => (row.github_repos, row.github_collaborator_repos, [])
  | none => ([], [], [])

/-! ## Lemmas about the deduplication walk -/

theorem dedupWalk_sublist : ∀ (l : List RepoRecord) (seen : List String),
    List.Sublist (dedupWalk l seen) l
  | [], _ => List.Sublist.refl _
  | r :: rs, seen => by
    unfold dedupWalk
    split
    · exact (dedupWalk_sublist rs seen).cons r
    · exact (dedupWalk_sublist rs (r.full_name :: seen)).cons₂ r

theorem mem_of_mem_dedupWalk {l : List RepoRecord} {seen : List String}
    {r : RepoRecord} (h : r ∈ dedupWalk l seen) : r ∈ l :=
  (dedupWalk_sublist l seen).mem h

theorem dedupWalk_fresh : ∀ (l : List RepoRecord) (seen : List String)
    (r : RepoRecord), r ∈ dedupWalk l seen → r.full_name ∉ seen
  | [], _, _, h => by simp [dedupWalk] at h
  | x :: xs, seen, r, h => by
    unfold dedupWalk at h
    split at h
    · exact dedupWalk_fresh xs seen r h
    · rcases List.mem_cons.mp h with h | h
      · subst h
        assumption
      · intro hmem
        exact dedupWalk_fresh xs (x.full_name :: seen) r h (List.mem_cons_of_mem _ hmem)

theorem dedupWalk_names_pairwise : ∀ (l : List RepoRecord) (seen : List String),
    (dedupWalk l seen).Pairwise (fun a b => a.full_name ≠ b.full_name)
  | [], _ => List.Pairwise.nil
  | x :: xs, seen => by
    unfold dedupWalk
    split
    · exact dedupWalk_names_pairwise xs seen
    · refine List.Pairwise.cons ?_ (dedupWalk_names_pairwise xs (x.full_name :: seen))
      intro b hb hname
      exact dedupWalk_fresh xs (x.full_name :: seen) b hb (hname ▸ List.mem_cons_self _ _)

theorem dedupWalk_of_names_pairwise : ∀ (l : List RepoRecord) (seen : List String),
    (∀ r ∈ l, r.full_name ∉ seen) →
    l.Pairwise (fun a b => a.full_name ≠ b.full_name) →
    dedupWalk l seen = l
  | [], _, _, _ => rfl
  | x :: xs, seen, hfresh, hpair => by
    unfold dedupWalk
    rw [if_neg (hfresh x (List.mem_cons_self _ _))]
    refine congrArg _ (dedupWalk_of_names_pairwise xs _ ?_ hpair.of_cons)
    intro r hr
    simp only [List.mem_cons, not_or]
    exact ⟨fun he => (List.rel_of_pairwise_cons hpair hr) he.symm, hfresh r (List.mem_cons_of_mem _ hr)⟩

/-- Helper: in a duplicate-free list `l`, a sublist `c` containing two
designated elements that occur in `l` in the order `[a, b]` also contains
them in that order. -/
theorem pair_sublist_of_sublist_of_nodup :
    ∀ {l c : List RepoRecord} {a b : RepoRecord}, l.Nodup →
    List.Sublist c l → a ∈ c → b ∈ c → a ≠ b →
    List.Sublist [a, b] l → List.Sublist [a, b] c := by
  intro l
  induction l with
  | nil =>
    intro c a b _ hc ha _ _ _
    rw [List.sublist_nil.mp hc] at ha
    simp at ha
  | cons x xs ih =>
    intro c a b hnd hc ha hb hab hpair
    obtain ⟨hxxs, hndxs⟩ := List.nodup_cons.mp hnd
    cases hc with
    | cons _ hc0 =>
      have hax : a ≠ x := fun he => hxxs (he ▸ hc0.mem ha)
      have hpair' : List.Sublist [a, b] xs := by
        cases hpair with
        | cons _ h => exact h
        | cons₂ _ h => exact absurd rfl hax
      exact ih hndxs hc0 ha hb hab hpair'
    | cons₂ _ hc0 =>
      rename_i c'
      by_cases hax : a = x
      · have hbc' : b ∈ c' := by
          rcases List.mem_cons.mp hb with h | h
          · exact absurd (h.trans hax.symm) (fun he => hab he.symm)
          · exact h
        have : List.Sublist [b] c' := List.singleton_sublist.mpr hbc'
        subst hax
        exact List.cons_sublist_cons.mpr this
      · have hpair' : List.Sublist [a, b] xs := by
          cases hpair with
          | cons _ h => exact h
          | cons₂ _ h => exact absurd rfl hax
        have hbxs : b ∈ xs := hpair'.mem (by simp)
        have hbx : b ≠ x := fun he => hxxs (he ▸ hbxs)
        have hac' : a ∈ c' := by
          rcases List.mem_cons.mp ha with h | h
          · exact absurd h hax
          · exact h
        have hbc' : b ∈ c' := by
          rcases List.mem_cons.mp hb with h | h
          · exact absurd h hbx
          · exact h
        exact (ih hndxs hc0 hac' hbc' hab hpair').cons x

theorem lexLe_refl : ∀ as : List Char, lexLe as as = true
  | [] => rfl
  | a :: as => by simp [lexLe, lexLe_refl as]

theorem strLe_refl (s : String) : strLe s s = true :=
  lexLe_refl s.data

/-! ## Concrete inputs used by witnesses and counterexamples -/

/-- A concrete repository record with 0 stars. -/
def recLowStars : RepoRecord :=
  { name := "low", full_name := "octocat/low", description := none, html_url := "",
    language := none, stars := 0, forks := 0, updated_at := "2024-01-01T00:00:00Z",
    owner := "octocat", is_owner := true, is_collaborator := false, is_fork := false,
    relationship := none }

/-- A concrete repository record with 3 stars. -/
def recHighStars : RepoRecord :=
  { recLowStars with name := "high", full_name := "octocat/high", stars := 3 }

/-- Two concrete records whose sort keys `(stars, updated_at)` tie but whose
`full_name`s differ. -/
def recTieA : RepoRecord :=
  { recLowStars with name := "tie-a", full_name := "octocat/tie-a", stars := 2 }

/-- Second record of the tied pair. -/
def recTieB : RepoRecord :=
  { recLowStars with name := "tie-b", full_name := "octocat/tie-b", stars := 2 }

/-! ## Claim C2 -/

/-- C2 counterexample: `_deduplicate_repos` sorts the caller's list in
place (`repositories.sort(...)`), so on the input
`[recLowStars, recHighStars]` the input list afterwards holds the records
in the order `[recHighStars, recLowStars]`, not in the original order as
the claim states. -/
theorem c2_counterexample :
    deduplicate_repos_input_after [recLowStars, recHighStars] = [recHighStars, recLowStars] ∧
    deduplicate_repos_input_after [recLowStars, recHighStars] ≠ [recLowStars, recHighStars] := by
  constructor
  · decide
  · decide

/-- C2 amended: `dedupe` returns a new sequence whose records are all drawn
from the input and never alters any record, but the input list is reordered
in place by the ranking sort: after the call the input holds the same
records as a permutation of the original list (not necessarily in the same
order), and the returned sequence is a subsequence of that sorted input. -/
theorem c2_dedupe_preserves_multiset (xs : List RepoRecord) :
    (deduplicate_repos_input_after xs).Perm xs ∧
    deduplicate_repos xs ⊆ xs ∧
    List.Sublist (deduplicate_repos xs) (deduplicate_repos_input_after xs) := by
  refine ⟨List.perm_insertionSort repoOrder xs, ?_, dedupWalk_sublist _ _⟩
  intro r hr
  exact (List.perm_insertionSort repoOrder xs).mem_iff.mp (mem_of_mem_dedupWalk hr)

/-- C2 amended-witness: the amended statement evaluated on a concrete
input. -/
theorem c2_dedupe_preserves_multiset_witness :
    (deduplicate_repos_input_after [recLowStars, recHighStars]).Perm
      [recLowStars, recHighStars] ∧
    deduplicate_repos [recLowStars, recHighStars] ⊆ [recLowStars, recHighStars] ∧
    List.Sublist (deduplicate_repos [recLowStars, recHighStars])
      (deduplicate_repos_input_after [recLowStars, recHighStars]) :=
  c2_dedupe_preserves_multiset [recLowStars, recHighStars]

/-! ## Claim C4 -/

/-- C4: deduplication is idempotent — `dedupe(dedupe(xs)) == dedupe(xs)`
for every input list. -/
theorem c4_dedupe_idempotent (xs : List RepoRecord) :
    deduplicate_repos (deduplicate_repos xs) = deduplicate_repos xs := by
  unfold deduplicate_repos
  have hsorted : (xs.insertionSort repoOrder).Pairwise repoOrder :=
    List.sorted_insertionSort repoOrder xs
  have hosorted : (dedupWalk (xs.insertionSort repoOrder) []).Pairwise repoOrder :=
    hsorted.sublist (dedupWalk_sublist _ _)
  rw [List.Sorted.insertionSort_eq hosorted]
  exact dedupWalk_of_names_pairwise _ []
    (fun r _ => List.not_mem_nil r.full_name) (dedupWalk_names_pairwise _ _)

/-! ## Claim C5 -/

/-- C5: for any two records `a` before `b` in the dedup output, either
`a.stars > b.stars`, or `a.stars == b.stars` and `a.updated_at >=
b.updated_at` (Python string comparison, modelled by `strLe`); and ties in
both sort keys keep the original insertion order — for a duplicate-free
input, two distinct records with equal keys that occur in the input in the
order `[a, b]` and both survive deduplication occur in the output in that
same order. -/
theorem c5_ranking_order (xs : List RepoRecord) :
    ((deduplicate_repos xs).Pairwise (fun a b =>
        b.stars < a.stars ∨ (a.stars = b.stars ∧ strLe b.updated_at a.updated_at = true))) ∧
    (∀ a b : RepoRecord, xs.Nodup → a ≠ b →
        a.stars = b.stars → a.updated_at = b.updated_at →
        List.Sublist [a, b] xs →
        a ∈ deduplicate_repos xs → b ∈ deduplicate_repos xs →
        List.Sublist [a, b] (deduplicate_repos xs)) := by
  constructor
  · have hsorted : (xs.insertionSort repoOrder).Pairwise repoOrder :=
      List.sorted_insertionSort repoOrder xs
    have ho : (deduplicate_repos xs).Pairwise repoOrder :=
      hsorted.sublist (dedupWalk_sublist _ _)
    refine ho.imp ?_
    intro a b h
    rcases h with h | ⟨he, hs⟩
    · exact Or.inl h
    · exact Or.inr ⟨he.symm, hs⟩
  · intro a b hnd hab hstars hupd hpair ha hb
    have hkey : repoOrder a b := Or.inr ⟨hstars.symm, hupd ▸ strLe_refl _⟩
    have hpairSort : List.Sublist [a, b] (xs.insertionSort repoOrder) :=
      List.pair_sublist_insertionSort hkey hpair
    have hndSort : (xs.insertionSort repoOrder).Nodup :=
      (List.perm_insertionSort repoOrder xs).nodup_iff.mpr hnd
    exact pair_sublist_of_sublist_of_nodup hndSort (dedupWalk_sublist _ _) ha hb hab hpairSort

/-- C5 witness: the theorem applied to the concrete tied pair
`[recTieA, recTieB]`, which both survive deduplication and stay in
insertion order. -/
theorem c5_ranking_order_witness :
    List.Sublist [recTieA, recTieB] (deduplicate_repos [recTieA, recTieB]) :=
  (c5_ranking_order [recTieA, recTieB]).2 recTieA recTieB (by decide) (by decide)
    rfl rfl (by decide) (by decide) (by decide)

/-! ## Concrete worlds used by witnesses and counterexamples -/

/-- A page response with status 200 and no repositories. -/
def emptyPage : Page :=
  { status := 200, body := [] }

/-- A world in which every endpoint answers 200 with an empty body and no
token is configured: every fetcher terminates on its first page. -/
def trivialWorld : World :=
  { envToken := none,
    ownedPages := fun _ => emptyPage,
    eventsPages := fun _ => { status := 200, body := [] },
    details := fun _ => none,
    orgsResp := { status := 200, body := [] },
    orgRepoPages := fun _ _ => emptyPage,
    collabPages := fun _ => emptyPage,
    starredPages := fun _ => emptyPage }

/-- A profile row whose `github_repos_updated_at` is the given timestamp. -/
def throttleRow (t : Int) : ProfileRow :=
  { github_repos := [], github_repos_updated_at := some t,
    github_collaborator_repos := [], github_collaborator_repos_updated_at := none,
    github_username := "octocat", rest := 7 }

/-! ## Lemmas about the Contributed fetcher -/

theorem processEventsPage_mem (w : World) (u : String) (es : List EventJson) :
    ∀ (seen : List String) (r : RepoRecord),
    r ∈ (processEventsPage w u es seen).1 → ∃ d : RepoJson, r = mkContributedRecord d u := by
  induction es with
  | nil =>
    intro seen r h
    simp [processEventsPage] at h
  | cons e es ih =>
    intro seen r h
    unfold processEventsPage at h
    split at h
    · split at h
      · split at h
        · exact ih seen r h
        · split at h
          · rcases List.mem_cons.mp h with h | h
            · exact ⟨_, h⟩
            · exact ih _ r h
          · exact ih _ r h
      · exact ih seen r h
    · exact ih seen r h

theorem fetchContributedLoop_mem (w : World) (u : String) (page : Nat) (seen : List String)
    (acc : List RepoRecord) (r : RepoRecord)
    (h : r ∈ fetchContributedLoop w u page seen acc) :
    r ∈ acc ∨ ∃ d : RepoJson, r = mkContributedRecord d u := by
  revert h
  induction page, seen, acc using fetchContributedLoop.induct w u with
  | case1 page seen acc hguard p hp =>
    intro h
    rw [fetchContributedLoop] at h
    simp only [if_pos hguard] at h
    rw [if_pos (show (w.eventsPages page).status ≠ 200 from hp)] at h
    exact Or.inl h
  | case2 page seen acc hguard p hp hb =>
    intro h
    rw [fetchContributedLoop] at h
    simp only [if_pos hguard] at h
    rw [if_neg (show ¬ (w.eventsPages page).status ≠ 200 from hp),
        if_pos (show (w.eventsPages page).body.isEmpty = true from hb)] at h
    exact Or.inl h
  | case3 page seen acc hguard p hp hb pr ih =>
    intro h
    rw [fetchContributedLoop] at h
    simp only [if_pos hguard] at h
    rw [if_neg (show ¬ (w.eventsPages page).status ≠ 200 from hp),
        if_neg (show ¬ (w.eventsPages page).body.isEmpty = true from hb)] at h
    rcases ih h with hacc | hd
    · rcases List.mem_append.mp hacc with h1 | h1
      · exact Or.inl h1
      · exact Or.inr (processEventsPage_mem w u _ _ r h1)
    · exact Or.inr hd
  | case4 page seen acc hguard =>
    intro h
    rw [fetchContributedLoop] at h
    rw [if_neg hguard] at h
    exact Or.inl h

/-! ## Concrete world where the Contributed fetcher yields one record -/

/-- The detail payload of the contributed repository `alice/lib`. -/
def contributedDetailJson : RepoJson :=
  { name := "lib", full_name := "alice/lib", description := none, html_url := "",
    language := none, stargazers_count := 5, forks_count := 0,
    updated_at := "2024-02-02T00:00:00Z", owner_login := "alice", fork := false,
    source := none }

/-- A qualifying public event referencing `alice/lib`. -/
def pushEvent : EventJson :=
  { type := "PushEvent", repo_name := some "alice/lib" }

/-- A no-token world whose events feed contains one push event on a
repository owned by someone else; every other endpoint is empty. -/
def worldContrib : World :=
  { trivialWorld with
    eventsPages := fun p =>
      if p = 1 then { status := 200, body := [pushEvent] } else { status := 200, body := [] },
    details := fun s => if s = "alice/lib" then some contributedDetailJson else none }

theorem worldContrib_contributed_eval :
    fetchContributedLoop worldContrib "octocat" 1 [] [] =
      [mkContributedRecord contributedDetailJson "octocat"] := by
  rw [fetchContributedLoop]
  norm_num [worldContrib, trivialWorld, processEventsPage, pushEvent, eventTypeOk]
  rw [fetchContributedLoop]
  norm_num [worldContrib, trivialWorld]

/-! ## Claim C1 -/

/-- C1 counterexample: in `worldContrib` (user `octocat`, no token
supplied, no environment fallback) the returned `collaborator_like` bucket
is exactly one record produced by the Contributed fetcher with relationship
`contributor`; it is not a fork-upstream injection record (those carry
relationship `base_of_fork` or `base_of_collaborator_fork`), refuting the
claim that the bucket contains only fork-upstream injection records. -/
theorem c1_counterexample :
    (fetch_user_repositories worldContrib "octocat" none).2.1 =
      [mkContributedRecord contributedDetailJson "octocat"] ∧
    (mkContributedRecord contributedDetailJson "octocat").relationship = some "contributor" ∧
    (mkContributedRecord contributedDetailJson "octocat").relationship ≠ some "base_of_fork" ∧
    (mkContributedRecord contributedDetailJson "octocat").relationship ≠
      some "base_of_collaborator_fork" := by
  refine ⟨?_, by decide, by decide, by decide⟩
  show deduplicate_repos (collabBucketRaw worldContrib "octocat"
    (effectiveToken worldContrib none)) = _
  have henv : effectiveToken worldContrib none = none := rfl
  rw [henv]
  show deduplicate_repos (fetchContributedLoop worldContrib "octocat" 1 [] []) = _
  rw [worldContrib_contributed_eval]
  decide

/-- C1 amended: with no token available (none supplied and no environment
fallback) only the Owned and Contributed fetchers execute and the
Collaborator/Organization/Starred fetchers are skipped; but the returned
`collaborator_like` bucket is the deduplicated output of the Contributed
fetcher — every record in it has relationship `contributor` or `owner`,
never `collaborator`, `organization_member`, `starred`, or a fork-upstream
injection (owned-fork upstream injections go into the owned bucket
instead), and the `other` bucket is empty. -/
theorem c1_no_token (w : World) (u : String) (henv : w.envToken = none) :
    (fetch_user_repositories w u none).1 = deduplicate_repos (fetchOwnedRepos w u) ∧
    (fetch_user_repositories w u none).2.1 =
      deduplicate_repos (fetchContributedLoop w u 1 [] []) ∧
    (fetch_user_repositories w u none).2.2 = [] ∧
    (∀ r ∈ (fetch_user_repositories w u none).2.1,
      r.relationship = some "contributor" ∨ r.relationship = some "owner") := by
  have htok : effectiveToken w none = none := henv
  refine ⟨rfl, ?_, ?_, ?_⟩
  · show deduplicate_repos (collabBucketRaw w u (effectiveToken w none)) = _
    rw [htok]
    rfl
  · show deduplicate_repos (otherBucketRaw w u (effectiveToken w none)) = []
    rw [htok]
    rfl
  · intro r hr
    have hr' : r ∈ collabBucketRaw w u (effectiveToken w none) := by
      have h1 : r ∈ (collabBucketRaw w u (effectiveToken w none)).insertionSort repoOrder :=
        mem_of_mem_dedupWalk hr
      exact (List.perm_insertionSort repoOrder _).mem_iff.mp h1
    rw [htok] at hr'
    have : r ∈ ([] : List RepoRecord) ∨ ∃ d : RepoJson, r = mkContributedRecord d u :=
      fetchContributedLoop_mem w u 1 [] [] r hr'
    rcases this with h | ⟨d, rfl⟩
    · simp at h
    · by_cases hown : d.owner_login == u
      · exact Or.inr (by simp [mkContributedRecord, hown])
      · exact Or.inl (by simp [mkContributedRecord, hown])

/-- C1 amended-witness: the amended statement evaluated in `worldContrib`. -/
theorem c1_no_token_witness :
    (fetch_user_repositories worldContrib "octocat" none).2.1 =
      deduplicate_repos (fetchContributedLoop worldContrib "octocat" 1 [] []) ∧
    (fetch_user_repositories worldContrib "octocat" none).2.2 = [] :=
  ⟨(c1_no_token worldContrib "octocat" rfl).2.1,
   (c1_no_token worldContrib "octocat" rfl).2.2.1⟩

/-! ## Claim C3 -/

/-- C3: the Regular scheduler entry point on an existing profile returns
success with no fetch and no write when the elapsed time since
`github_repos_updated_at` is under 24 hours, and performs a fetch when the
elapsed time exceeds 24 hours. -/
theorem c3_throttle_boundary (w : World) (u : String) (tok : Option String)
    (now t : Int) (row : ProfileRow) (hrow : row.github_repos_updated_at = some t) :
    (now - t < 24 * 3600 →
      update_user_github_repos w (some row) u tok now =
        { ok := true, fetched := false, db := some row }) ∧
    (24 * 3600 < now - t →
      (update_user_github_repos w (some row) u tok now).fetched = true ∧
      (update_user_github_repos w (some row) u tok now).ok = true) := by
  constructor
  · intro h
    simp only [update_user_github_repos]
    rw [hrow]
    simp [show now - t < 86400 by omega]
  · intro h
    simp only [update_user_github_repos]
    rw [hrow]
    simp [show ¬ now - t < 86400 by omega]

/-- C3 witness: with `github_repos_updated_at = 0`, calling Regular at
`now = 86399` (24 hours minus one second later) is a success with no fetch
and no write, and calling it at `now = 86401` (24 hours plus one second
later) performs a fetch. -/
theorem c3_throttle_boundary_witness :
    update_user_github_repos trivialWorld (some (throttleRow 0)) "octocat" none 86399 =
      { ok := true, fetched := false, db := some (throttleRow 0) } ∧
    (update_user_github_repos trivialWorld (some (throttleRow 0)) "octocat" none 86401).fetched
      = true :=
  ⟨(c3_throttle_boundary trivialWorld "octocat" none 86399 0 (throttleRow 0) rfl).1 (by omega),
   ((c3_throttle_boundary trivialWorld "octocat" none 86401 0 (throttleRow 0) rfl).2
      (by omega)).1⟩

/-! ## Claim C10 -/

/-- C10: the starred/"other" bucket is computed but never persisted. Every
write either scheduler performs stores exactly
`applyProfileUpdate row owned collab now u` — i.e. it sets the five columns
`github_repos`, `github_repos_updated_at`, `github_collaborator_repos`,
`github_collaborator_repos_updated_at`, `github_username` from the owned
and collaborator buckets only, leaving every other column (`rest`)
unchanged and storing nothing from the third bucket — and the snapshot read
`get_user_github_repos` returns an empty list as its third component for
every profile state. -/
theorem c10_other_bucket_never_persisted (w : World) (u : String) (tok : Option String)
    (now : Int) (row : ProfileRow) (db : Option ProfileRow) :
    (get_user_github_repos db).2.2 = [] ∧
    (∀ owned collab : List RepoRecord,
      (applyProfileUpdate row owned collab now u).rest = row.rest) ∧
    (update_user_github_repos_initial w (some row) u tok now).db =
      some (applyProfileUpdate row (fetch_user_repositories w u tok).1
        (fetch_user_repositories w u tok).2.1 now u) ∧
    (update_user_github_repos_initial w none u tok now).db = none ∧
    (update_user_github_repos w none u tok now).db = none ∧
    (row.github_repos_updated_at = none →
      (update_user_github_repos w (some row) u tok now).db =
        some (applyProfileUpdate row (fetch_user_repositories w u tok).1
          (fetch_user_repositories w u tok).2.1 now u)) ∧
    (∀ t : Int, row.github_repos_updated_at = some t → 24 * 3600 ≤ now - t →
      (update_user_github_repos w (some row) u tok now).db =
        some (applyProfileUpdate row (fetch_user_repositories w u tok).1
          (fetch_user_repositories w u tok).2.1 now u)) ∧
    (∀ t : Int, row.github_repos_updated_at = some t → now - t < 24 * 3600 →
      (update_user_github_repos w (some row) u tok now).db = some row) := by
  refine ⟨?_, fun _ _ => rfl, rfl, rfl, rfl, ?_, ?_, ?_⟩
  · cases db <;> rfl
  · intro h
    simp only [update_user_github_repos]
    rw [h]
  · intro t h hge
    simp only [update_user_github_repos]
    rw [h]
    simp [show ¬ now - t < 86400 by omega]
  · intro t h hlt
    simp only [update_user_github_repos]
    rw [h]
    simp [show now - t < 86400 by omega]

/-- C10 witness: the theorem evaluated at a concrete profile and time,
including the over-24-hours Regular write path. -/
theorem c10_other_bucket_never_persisted_witness :
    (get_user_github_repos (some (throttleRow 0))).2.2 = [] ∧
    (update_user_github_repos trivialWorld (some (throttleRow 0)) "octocat" none 90000).db =
      some (applyProfileUpdate (throttleRow 0)
        (fetch_user_repositories trivialWorld "octocat" none).1
        (fetch_user_repositories trivialWorld "octocat" none).2.1 90000 "octocat") :=
  ⟨(c10_other_bucket_never_persisted trivialWorld "octocat" none 90000 (throttleRow 0)
      (some (throttleRow 0))).1,
   (c10_other_bucket_never_persisted trivialWorld "octocat" none 90000 (throttleRow 0)
      (some (throttleRow 0))).2.2.2.2.2.2.1 0 rfl (by omega)⟩


/-! ## Claim C8 -/

/-- C8: when page 1 of the Owned fetcher's endpoint returns HTTP 403, the
Owned fetcher contributes no records (its pagination ends with an empty
accumulation), the aggregation returns normally, and the remaining
category fetchers still execute: the run's collaborator-like and other
buckets are exactly the deduplicated outputs of the remaining pipeline,
unaffected by the owned failure. -/
theorem c8_owned_403 (w : World) (u : String) (tok : Option String)
    (h403 : (w.ownedPages 1).status = 403) :
    fetchOwnedRepos w u = [] ∧
    fetch_user_repositories w u tok =
      ([], deduplicate_repos (collabBucketRaw w u (effectiveToken w tok)),
       deduplicate_repos (otherBucketRaw w u (effectiveToken w tok))) := by
  have howned : fetchOwnedRepos w u = [] := by
    rw [fetchOwnedRepos, fetchOwnedLoop]
    simp [h403]
  exact ⟨howned, by rw [fetch_user_repositories, howned]; rfl⟩

/-- The world of the C8 witness: the owned endpoint is rate limited on
every page, while the events feed still produces the contributed
repository `alice/lib`. -/
def world403 : World :=
  { worldContrib with ownedPages := fun _ => { status := 403, body := [] } }

/-- C8 witness: in `world403` the owned bucket is empty while the
Contributed fetcher still ran and produced its record. -/
theorem c8_owned_403_witness :
    fetchOwnedRepos world403 "octocat" = [] ∧
    fetch_user_repositories world403 "octocat" none =
      ([], deduplicate_repos (collabBucketRaw world403 "octocat"
            (effectiveToken world403 none)),
       deduplicate_repos (otherBucketRaw world403 "octocat"
            (effectiveToken world403 none))) :=
  c8_owned_403 world403 "octocat" none rfl

/-! ## Claim C9 -/

/-- The upstream of the owned fork in the C9 world. -/
def widgetSrc : SourceInfo :=
  { name := "widget", full_name := "alice/widget", description := none, html_url := "",
    language := none, stargazers_count := 7, forks_count := 1,
    updated_at := "2024-03-03T00:00:00Z", owner_login := "alice", fork := false }

/-- The owned fork whose page payload embeds its upstream `source`. -/
def widgetForkJson : RepoJson :=
  { name := "widget", full_name := "octocat/widget", description := none, html_url := "",
    language := none, stargazers_count := 1, forks_count := 0,
    updated_at := "2024-03-04T00:00:00Z", owner_login := "octocat", fork := true,
    source := some widgetSrc }

/-- A no-token world where `octocat` owns one fork of `alice/widget` and no
other endpoint returns anything. -/
def worldOwnedFork : World :=
  { trivialWorld with
    ownedPages := fun p =>
      if p = 1 then { status := 200, body := [widgetForkJson] } else emptyPage }

theorem worldOwnedFork_owned_eval :
    fetchOwnedRepos worldOwnedFork "octocat" =
      [mkOwnedRecord widgetForkJson, mkBaseRecord widgetSrc "base_of_fork"] := by
  rw [fetchOwnedRepos, fetchOwnedLoop]
  norm_num [worldOwnedFork, trivialWorld, processOwnedPage, ownedInject, resolveBase,
    widgetForkJson]
  rw [fetchOwnedLoop]
  norm_num [worldOwnedFork, trivialWorld, emptyPage]

/-- C9: the Owned fetcher appends a synthesized fork-upstream record into
the owned bucket itself. In `worldOwnedFork` the owned bucket returned by
`fetch_user_repositories` contains the upstream record — owned by `alice`,
not the queried `octocat`, with `is_owner = false`, `is_collaborator =
true` and relationship `base_of_fork` — while the collaborator-like bucket
does not contain it. -/
theorem c9_upstream_in_owned_bucket :
    (mkBaseRecord widgetSrc "base_of_fork") ∈ (fetch_user_repositories worldOwnedFork "octocat" none).1 ∧
    (mkBaseRecord widgetSrc "base_of_fork").owner = "alice" ∧
    (mkBaseRecord widgetSrc "base_of_fork").owner ≠ "octocat" ∧
    (mkBaseRecord widgetSrc "base_of_fork").is_owner = false ∧
    (mkBaseRecord widgetSrc "base_of_fork").is_collaborator = true ∧
    (mkBaseRecord widgetSrc "base_of_fork").relationship = some "base_of_fork" ∧
    (mkBaseRecord widgetSrc "base_of_fork") ∉
      (fetch_user_repositories worldOwnedFork "octocat" none).2.1 := by
  have h1 : (fetch_user_repositories worldOwnedFork "octocat" none).1 =
      deduplicate_repos [mkOwnedRecord widgetForkJson, mkBaseRecord widgetSrc "base_of_fork"] := by
    show deduplicate_repos (fetchOwnedRepos worldOwnedFork "octocat") = _
    rw [worldOwnedFork_owned_eval]
  have h2 : (fetch_user_repositories worldOwnedFork "octocat" none).2.1 =
      deduplicate_repos (fetchContributedLoop worldOwnedFork "octocat" 1 [] []) := by
    rfl
  have h3 : fetchContributedLoop worldOwnedFork "octocat" 1 [] [] = [] := by
    rw [fetchContributedLoop]
    norm_num [worldOwnedFork, trivialWorld]
  rw [h1, h2, h3]
  refine ⟨by decide, by decide, by decide, by decide, by decide, by decide, by decide⟩

/-! ## Fork-upstream injection counting (Claim C6) -/

/-- Boolean indicator of a fork-upstream injection record for upstream `B`
with the given relationship tag. -/
def isBaseInj (rel B : String) (r : RepoRecord) : Bool :=
  decide (r.relationship = some rel ∧ r.full_name = B)

/-- 1 while upstream `B` may still be injected (its name is not in the
`base_repos_added` set), 0 once it has been added. -/
def baseFlag (B : String) (base : List String) : Nat :=
  if B ∈ base then 0 else 1

theorem isBaseInj_mkOwnedRecord (B : String) (r : RepoJson) :
    isBaseInj "base_of_fork" B (mkOwnedRecord r) = false := by
  simp [isBaseInj, mkOwnedRecord]

theorem isBaseInj_mkBaseRecord (rel B : String) (s : SourceInfo) :
    isBaseInj rel B (mkBaseRecord s rel) = decide (s.full_name = B) := by
  simp [isBaseInj, mkBaseRecord]

theorem ownedInject_count (w : World) (r : RepoJson) (base : List String) (B : String) :
    (ownedInject w r base).1.countP (isBaseInj "base_of_fork" B) +
      baseFlag B (ownedInject w r base).2 = baseFlag B base := by
  unfold ownedInject
  split
  · split
    · rename_i s hres
      by_cases hmem : s.full_name ∈ base
      · rw [if_pos hmem]
        simp
      · rw [if_neg hmem]
        simp only [List.countP_cons, List.countP_nil, isBaseInj_mkBaseRecord]
        by_cases hB : s.full_name = B
        · subst hB
          simp [baseFlag, hmem]
        · have h1 : baseFlag B (s.full_name :: base) = baseFlag B base := by
            simp [baseFlag, List.mem_cons, Ne.symm hB]
          rw [h1]
          simp [hB]
    · simp
  · simp

theorem processOwnedPage_count (w : World) (B : String) :
    ∀ (rs : List RepoJson) (base : List String),
    (processOwnedPage w rs base).1.countP (isBaseInj "base_of_fork" B) +
      baseFlag B (processOwnedPage w rs base).2 = baseFlag B base := by
  intro rs
  induction rs with
  | nil =>
    intro base
    simp [processOwnedPage]
  | cons r rs ih =>
    intro base
    unfold processOwnedPage
    simp only [List.countP_cons, List.countP_append, isBaseInj_mkOwnedRecord]
    have h1 := ownedInject_count w r base B
    have h2 := ih (ownedInject w r base).2
    simp only [Bool.false_eq_true, if_false]
    omega

theorem fetchOwnedLoop_count (w : World) (u B : String) (page : Nat)
    (base : List String) (acc : List RepoRecord) :
    (fetchOwnedLoop w u page base acc).countP (isBaseInj "base_of_fork" B) ≤
      acc.countP (isBaseInj "base_of_fork" B) + baseFlag B base := by
  induction page, base, acc using fetchOwnedLoop.induct w u with
  | case1 page base acc hlt p hst =>
    rw [fetchOwnedLoop]
    simp only [dif_pos hlt]
    rw [if_pos (show (w.ownedPages page).status ≠ 200 from hst)]
    omega
  | case2 page base acc hlt p hst hemp =>
    rw [fetchOwnedLoop]
    simp only [dif_pos hlt]
    rw [if_neg (show ¬ (w.ownedPages page).status ≠ 200 from hst),
        dif_pos (show (w.ownedPages page).body.isEmpty = true from hemp)]
    omega
  | case3 page base acc hlt p hst hemp pr ih =>
    rw [fetchOwnedLoop]
    simp only [dif_pos hlt]
    rw [if_neg (show ¬ (w.ownedPages page).status ≠ 200 from hst),
        dif_neg (show ¬ (w.ownedPages page).body.isEmpty = true from hemp)]
    have hpr : pr = processOwnedPage w (w.ownedPages page).body base := rfl
    rw [hpr] at ih
    have h1 := processOwnedPage_count w B (w.ownedPages page).body base
    have h2 : (acc ++ (processOwnedPage w (w.ownedPages page).body base).1).countP
        (isBaseInj "base_of_fork" B) =
        acc.countP (isBaseInj "base_of_fork" B) +
        (processOwnedPage w (w.ownedPages page).body base).1.countP
          (isBaseInj "base_of_fork" B) :=
      List.countP_append _ _ _
    omega
  | case4 page base acc hguard =>
    rw [fetchOwnedLoop]
    rw [dif_neg hguard]
    omega

theorem isBaseInj_mkCollaboratorRecord (B : String) (r : RepoJson) (u : String) :
    isBaseInj "base_of_collaborator_fork" B (mkCollaboratorRecord r u) = false := by
  simp only [isBaseInj, mkCollaboratorRecord, decide_eq_false_iff_not]
  rintro ⟨h1, h2⟩
  split at h1 <;> simp_all

theorem collabInject_count (w : World) (r : RepoJson) (base : List String) (B : String) :
    (collabInject w r base).1.countP (isBaseInj "base_of_collaborator_fork" B) +
      baseFlag B (collabInject w r base).2 = baseFlag B base := by
  unfold collabInject
  split
  · split
    · split
      · rename_i s hsrc
        by_cases hmem : s.full_name ∈ base
        · rw [if_pos hmem]
          simp
        · rw [if_neg hmem]
          simp only [List.countP_cons, List.countP_nil, isBaseInj_mkBaseRecord]
          by_cases hB : s.full_name = B
          · subst hB
            simp [baseFlag, hmem]
          · have h1 : baseFlag B (s.full_name :: base) = baseFlag B base := by
              simp [baseFlag, List.mem_cons, Ne.symm hB]
            rw [h1]
            simp [hB]
      · simp
    · simp
  · simp

theorem processCollabPage_count (w : World) (u B : String) :
    ∀ (rs : List RepoJson) (base : List String),
    (processCollabPage w u rs base).1.countP (isBaseInj "base_of_collaborator_fork" B) +
      baseFlag B (processCollabPage w u rs base).2 = baseFlag B base := by
  intro rs
  induction rs with
  | nil =>
    intro base
    simp [processCollabPage]
  | cons r rs ih =>
    intro base
    unfold processCollabPage
    simp only [List.countP_cons, List.countP_append, isBaseInj_mkCollaboratorRecord]
    have h1 := collabInject_count w r base B
    have h2 := ih (collabInject w r base).2
    simp only [Bool.false_eq_true, if_false]
    omega

theorem fetchCollaboratorLoop_count (w : World) (u B : String) (page : Nat)
    (base : List String) (acc : List RepoRecord) :
    (fetchCollaboratorLoop w u page base acc).1.countP
        (isBaseInj "base_of_collaborator_fork" B) ≤
      acc.countP (isBaseInj "base_of_collaborator_fork" B) + baseFlag B base := by
  induction page, base, acc using fetchCollaboratorLoop.induct w u with
  | case1 page base acc hguard p hst =>
    rw [fetchCollaboratorLoop]
    simp only [if_pos hguard]
    rw [if_pos (show (w.collabPages page).status ≠ 200 from hst)]
    dsimp only
    omega
  | case2 page base acc hguard p hst hemp =>
    rw [fetchCollaboratorLoop]
    simp only [if_pos hguard]
    rw [if_neg (show ¬ (w.collabPages page).status ≠ 200 from hst),
        if_pos (show (w.collabPages page).body.isEmpty = true from hemp)]
    dsimp only
    omega
  | case3 page base acc hguard p hst hemp pr ih =>
    rw [fetchCollaboratorLoop]
    simp only [if_pos hguard]
    rw [if_neg (show ¬ (w.collabPages page).status ≠ 200 from hst),
        if_neg (show ¬ (w.collabPages page).body.isEmpty = true from hemp)]
    have hpr : pr = processCollabPage w u (w.collabPages page).body base := rfl
    rw [hpr] at ih
    have h1 := processCollabPage_count w u B (w.collabPages page).body base
    have h2 : (acc ++ (processCollabPage w u (w.collabPages page).body base).1).countP
        (isBaseInj "base_of_collaborator_fork" B) =
        acc.countP (isBaseInj "base_of_collaborator_fork" B) +
        (processCollabPage w u (w.collabPages page).body base).1.countP
          (isBaseInj "base_of_collaborator_fork" B) :=
      List.countP_append _ _ _
    dsimp only
    omega
  | case4 page base acc hguard =>
    rw [fetchCollaboratorLoop]
    rw [if_neg hguard]
    dsimp only
    omega

/-! ## Concrete worlds for the fork-injection claims -/

/-- The shared upstream of the two owned forks. -/
def upstreamSrc : SourceInfo :=
  { name := "base", full_name := "alice/base", description := none, html_url := "",
    language := none, stargazers_count := 10, forks_count := 2,
    updated_at := "2024-01-05T00:00:00Z", owner_login := "alice", fork := false }

/-- First owned fork of `alice/base`, with the upstream embedded in the
page payload. -/
def forkJson1 : RepoJson :=
  { name := "f1", full_name := "octocat/f1", description := none, html_url := "",
    language := none, stargazers_count := 1, forks_count := 0,
    updated_at := "2024-01-06T00:00:00Z", owner_login := "octocat", fork := true,
    source := some upstreamSrc }

/-- Second owned fork of the same upstream. -/
def forkJson2 : RepoJson :=
  { forkJson1 with name := "f2", full_name := "octocat/f2" }

/-- A no-token world where page 1 of the owned endpoint returns two forks
sharing the upstream `alice/base`. -/
def worldTwoForks : World :=
  { trivialWorld with
    ownedPages := fun p =>
      if p = 1 then { status := 200, body := [forkJson1, forkJson2] } else emptyPage }

theorem worldTwoForks_owned_eval :
    fetchOwnedRepos worldTwoForks "octocat" =
      [mkOwnedRecord forkJson1, mkBaseRecord upstreamSrc "base_of_fork",
       mkOwnedRecord forkJson2] := by
  rw [fetchOwnedRepos, fetchOwnedLoop]
  norm_num [worldTwoForks, trivialWorld, processOwnedPage, ownedInject, resolveBase,
    forkJson1, forkJson2, upstreamSrc]
  rw [fetchOwnedLoop]
  norm_num [worldTwoForks, trivialWorld, emptyPage]

/-- The shared upstream of the two collaborator forks. -/
def gSrc : SourceInfo :=
  { name := "lib", full_name := "bob/lib", description := none, html_url := "",
    language := none, stargazers_count := 4, forks_count := 2,
    updated_at := "2024-04-04T00:00:00Z", owner_login := "bob", fork := false }

/-- First collaborator fork (no embedded source; resolved via the detail
lookup, as `_fetch_collaborator_repos` always does). -/
def gFork1 : RepoJson :=
  { name := "g1", full_name := "octocat/g1", description := none, html_url := "",
    language := none, stargazers_count := 0, forks_count := 0,
    updated_at := "2024-04-05T00:00:00Z", owner_login := "octocat", fork := true,
    source := none }

/-- Second collaborator fork of the same upstream. -/
def gFork2 : RepoJson :=
  { gFork1 with name := "g2", full_name := "octocat/g2" }

/-- The detail payload returned for every collaborator fork, carrying the
shared upstream. -/
def gDetail : RepoJson :=
  { gFork1 with source := some gSrc }

/-- A world where page 1 of the collaborator endpoint returns two forks
whose detail lookups resolve to the same upstream `bob/lib`. -/
def worldCollabForks : World :=
  { trivialWorld with
    collabPages := fun p =>
      if p = 1 then { status := 200, body := [gFork1, gFork2] } else emptyPage,
    details := fun _ => some gDetail }

theorem worldCollabForks_eval :
    (fetchCollaboratorLoop worldCollabForks "octocat" 1 [] []).1 =
      [mkCollaboratorRecord gFork1 "octocat", mkBaseRecord gSrc "base_of_collaborator_fork",
       mkCollaboratorRecord gFork2 "octocat"] := by
  rw [fetchCollaboratorLoop]
  norm_num [worldCollabForks, trivialWorld, processCollabPage, collabInject,
    gFork1, gFork2, gDetail, gSrc]
  rw [fetchCollaboratorLoop]
  norm_num [worldCollabForks, trivialWorld, emptyPage]

/-- The collaborator fork of `alice/widget` used by the cross-fetcher
world. -/
def widget2ForkJson : RepoJson :=
  { name := "widget2", full_name := "octocat/widget2", description := none, html_url := "",
    language := none, stargazers_count := 2, forks_count := 0,
    updated_at := "2024-03-05T00:00:00Z", owner_login := "octocat", fork := true,
    source := none }

/-- The detail payload of the collaborator fork, resolving to the same
upstream `alice/widget` as the owned fork. -/
def widget2Detail : RepoJson :=
  { widget2ForkJson with source := some widgetSrc }

/-- A token-bearing world where an owned fork and a collaborator fork share
the upstream `alice/widget`. -/
def worldCross : World :=
  { trivialWorld with
    ownedPages := fun p =>
      if p = 1 then { status := 200, body := [widgetForkJson] } else emptyPage,
    collabPages := fun p =>
      if p = 1 then { status := 200, body := [widget2ForkJson] } else emptyPage,
    details := fun _ => some widget2Detail }

theorem worldCross_owned_eval :
    fetchOwnedRepos worldCross "octocat" =
      [mkOwnedRecord widgetForkJson, mkBaseRecord widgetSrc "base_of_fork"] := by
  rw [fetchOwnedRepos, fetchOwnedLoop]
  norm_num [worldCross, trivialWorld, processOwnedPage, ownedInject, resolveBase,
    widgetForkJson, widgetSrc]
  rw [fetchOwnedLoop]
  norm_num [worldCross, trivialWorld, emptyPage]

theorem worldCross_collab_eval :
    (fetchCollaboratorLoop worldCross "octocat" 1 [] []).1 =
      [mkCollaboratorRecord widget2ForkJson "octocat",
       mkBaseRecord widgetSrc "base_of_collaborator_fork"] := by
  rw [fetchCollaboratorLoop]
  norm_num [worldCross, trivialWorld, processCollabPage, collabInject,
    widget2ForkJson, widget2Detail, widgetSrc]
  rw [fetchCollaboratorLoop]
  norm_num [worldCross, trivialWorld, emptyPage]

theorem worldCross_contrib_eval :
    fetchContributedLoop worldCross "octocat" 1 [] [] = [] := by
  rw [fetchContributedLoop]
  norm_num [worldCross, trivialWorld]

theorem worldCross_result :
    fetch_user_repositories worldCross "octocat" (some "t") =
      (deduplicate_repos [mkOwnedRecord widgetForkJson, mkBaseRecord widgetSrc "base_of_fork"],
       deduplicate_repos [mkCollaboratorRecord widget2ForkJson "octocat",
         mkBaseRecord widgetSrc "base_of_collaborator_fork"],
       deduplicate_repos []) := by
  rw [fetch_user_repositories]
  have h1 : effectiveToken worldCross (some "t") = some "t" := rfl
  rw [h1]
  have h2 : collabBucketRaw worldCross "octocat" (some "t") =
      [mkCollaboratorRecord widget2ForkJson "octocat",
       mkBaseRecord widgetSrc "base_of_collaborator_fork"] := by
    rw [collabBucketRaw]
    rw [worldCross_contrib_eval]
    show fetchOrganizationRepos worldCross "octocat"
      (fetchCollaboratorRepos worldCross "octocat" []) = _
    rw [fetchCollaboratorRepos, worldCross_collab_eval]
    rw [fetchOrganizationRepos]
    norm_num [worldCross, trivialWorld]
  have h3 : otherBucketRaw worldCross "octocat" (some "t") = [] := by
    rw [otherBucketRaw]
    show fetchStarredLoop worldCross "octocat" 1 [] = []
    rw [fetchStarredLoop]
    norm_num [worldCross, trivialWorld, emptyPage]
  rw [h2, h3, worldCross_owned_eval]

/-! ## Claim C6 -/

/-- C6: within a single invocation of the Owned fetcher, and likewise of
the Collaborator fetcher, a given upstream `full_name` is injected at most
once (the per-invocation `base_repos_added` set); on the concrete worlds
with two forks sharing one upstream the count is exactly one; and no
cross-fetcher deduplication happens: in `worldCross` the same upstream
record is present in both the owned and the collaborator buckets of one
aggregation run. -/
theorem c6_fork_base_single_injection :
    (∀ (w : World) (u B : String),
      (fetchOwnedRepos w u).countP (isBaseInj "base_of_fork" B) ≤ 1) ∧
    (∀ (w : World) (u B : String) (init : List RepoRecord),
      (fetchCollaboratorLoop w u 1 [] init).1.countP
          (isBaseInj "base_of_collaborator_fork" B) ≤
        init.countP (isBaseInj "base_of_collaborator_fork" B) + 1) ∧
    (fetchOwnedRepos worldTwoForks "octocat").countP
      (isBaseInj "base_of_fork" "alice/base") = 1 ∧
    (fetchCollaboratorLoop worldCollabForks "octocat" 1 [] []).1.countP
      (isBaseInj "base_of_collaborator_fork" "bob/lib") = 1 ∧
    mkBaseRecord widgetSrc "base_of_fork" ∈
      (fetch_user_repositories worldCross "octocat" (some "t")).1 ∧
    mkBaseRecord widgetSrc "base_of_collaborator_fork" ∈
      (fetch_user_repositories worldCross "octocat" (some "t")).2.1 := by
  refine ⟨?_, ?_, ?_, ?_, ?_, ?_⟩
  · intro w u B
    have h := fetchOwnedLoop_count w u B 1 [] []
    simpa [baseFlag] using h
  · intro w u B init
    have h := fetchCollaboratorLoop_count w u B 1 [] init
    simpa [baseFlag] using h
  · rw [worldTwoForks_owned_eval]
    decide
  · rw [worldCollabForks_eval]
    decide
  · rw [worldCross_result]
    decide
  · rw [worldCross_result]
    decide

/-! ## Collaborator caps (Claim C7) -/

theorem collabInject_length (w : World) (r : RepoJson) (base : List String) :
    (collabInject w r base).1.length ≤ 1 := by
  unfold collabInject
  split
  · split
    · split
      · split <;> simp
      · simp
    · simp
  · simp

theorem processCollabPage_length (w : World) (u : String) :
    ∀ (rs : List RepoJson) (base : List String),
    (processCollabPage w u rs base).1.length ≤ 2 * rs.length := by
  intro rs
  induction rs with
  | nil =>
    intro base
    simp [processCollabPage]
  | cons r rs ih =>
    intro base
    unfold processCollabPage
    simp only [List.length_cons, List.length_append]
    have h1 := collabInject_length w r base
    have h2 := ih (collabInject w r base).2
    omega

theorem fetchCollaboratorLoop_pages (w : World) (u : String) (page : Nat)
    (base : List String) (acc : List RepoRecord) :
    (fetchCollaboratorLoop w u page base acc).2 ≤ 6 - page := by
  induction page, base, acc using fetchCollaboratorLoop.induct w u with
  | case1 page base acc hguard p hst =>
    rw [fetchCollaboratorLoop]
    simp only [if_pos hguard]
    rw [if_pos (show (w.collabPages page).status ≠ 200 from hst)]
    dsimp only
    omega
  | case2 page base acc hguard p hst hemp =>
    rw [fetchCollaboratorLoop]
    simp only [if_pos hguard]
    rw [if_neg (show ¬ (w.collabPages page).status ≠ 200 from hst),
        if_pos (show (w.collabPages page).body.isEmpty = true from hemp)]
    dsimp only
    omega
  | case3 page base acc hguard p hst hemp pr ih =>
    rw [fetchCollaboratorLoop]
    simp only [if_pos hguard]
    rw [if_neg (show ¬ (w.collabPages page).status ≠ 200 from hst),
        if_neg (show ¬ (w.collabPages page).body.isEmpty = true from hemp)]
    have hpr : pr = processCollabPage w u (w.collabPages page).body base := rfl
    rw [hpr] at ih
    dsimp only
    omega
  | case4 page base acc hguard =>
    rw [fetchCollaboratorLoop]
    rw [if_neg hguard]
    dsimp only
    omega

theorem fetchCollaboratorLoop_length (w : World) (u : String)
    (h30 : ∀ p : Nat, (w.collabPages p).body.length ≤ 30) (page : Nat)
    (base : List String) (acc : List RepoRecord) :
    (fetchCollaboratorLoop w u page base acc).1.length ≤ max acc.length 109 := by
  induction page, base, acc using fetchCollaboratorLoop.induct w u with
  | case1 page base acc hguard p hst =>
    rw [fetchCollaboratorLoop]
    simp only [if_pos hguard]
    rw [if_pos (show (w.collabPages page).status ≠ 200 from hst)]
    exact Nat.le_max_left _ _
  | case2 page base acc hguard p hst hemp =>
    rw [fetchCollaboratorLoop]
    simp only [if_pos hguard]
    rw [if_neg (show ¬ (w.collabPages page).status ≠ 200 from hst),
        if_pos (show (w.collabPages page).body.isEmpty = true from hemp)]
    exact Nat.le_max_left _ _
  | case3 page base acc hguard p hst hemp pr ih =>
    rw [fetchCollaboratorLoop]
    simp only [if_pos hguard]
    rw [if_neg (show ¬ (w.collabPages page).status ≠ 200 from hst),
        if_neg (show ¬ (w.collabPages page).body.isEmpty = true from hemp)]
    have hpr : pr = processCollabPage w u (w.collabPages page).body base := rfl
    rw [hpr] at ih
    have hpage := processCollabPage_length w u (w.collabPages page).body base
    have hbody := h30 page
    have hnew : (acc ++ (processCollabPage w u (w.collabPages page).body base).1).length ≤ 109 := by
      simp only [List.length_append]
      omega
    dsimp only
    calc (fetchCollaboratorLoop w u (page + 1)
            (processCollabPage w u (w.collabPages page).body base).2
            (acc ++ (processCollabPage w u (w.collabPages page).body base).1)).1.length
        ≤ max (acc ++ (processCollabPage w u (w.collabPages page).body base).1).length 109 := ih
      _ = 109 := Nat.max_eq_right hnew
      _ ≤ max acc.length 109 := Nat.le_max_right _ _
  | case4 page base acc hguard =>
    rw [fetchCollaboratorLoop]
    rw [if_neg hguard]
    exact Nat.le_max_left _ _

/-- One unfolding step of the collaborator pagination when the guard holds
and the page is a non-empty 200 response. -/
theorem fetchCollaboratorLoop_step (w : World) (u : String) (page : Nat)
    (base : List String) (acc : List RepoRecord)
    (hguard : acc.length < 50 ∧ page ≤ 5)
    (hst : (w.collabPages page).status = 200)
    (hne : (w.collabPages page).body ≠ []) :
    fetchCollaboratorLoop w u page base acc =
      ((fetchCollaboratorLoop w u (page + 1)
          (processCollabPage w u (w.collabPages page).body base).2
          (acc ++ (processCollabPage w u (w.collabPages page).body base).1)).1,
       (fetchCollaboratorLoop w u (page + 1)
          (processCollabPage w u (w.collabPages page).body base).2
          (acc ++ (processCollabPage w u (w.collabPages page).body base).1)).2 + 1) := by
  conv_lhs => rw [fetchCollaboratorLoop]
  rw [if_pos hguard,
      if_neg (show ¬ (w.collabPages page).status ≠ 200 from by simp [hst]),
      if_neg (show ¬ (w.collabPages page).body.isEmpty = true from by
        simp [List.isEmpty_iff, hne])]

/-- The collaborator pagination returns after one request when the page is
an error or empty response. -/
theorem fetchCollaboratorLoop_page_end (w : World) (u : String) (page : Nat)
    (base : List String) (acc : List RepoRecord)
    (hguard : acc.length < 50 ∧ page ≤ 5)
    (h : (w.collabPages page).status ≠ 200 ∨ (w.collabPages page).body = []) :
    fetchCollaboratorLoop w u page base acc = (acc, 1) := by
  conv_lhs => rw [fetchCollaboratorLoop]
  rw [if_pos hguard]
  by_cases hst : (w.collabPages page).status ≠ 200
  · rw [if_pos hst]
  · rw [if_neg hst]
    rcases h with h | h
    · exact absurd h hst
    · rw [if_pos (show (w.collabPages page).body.isEmpty = true from by
        simp [List.isEmpty_iff, h])]

/-- The collaborator pagination returns immediately when the loop guard
fails. -/
theorem fetchCollaboratorLoop_stop (w : World) (u : String) (page : Nat)
    (base : List String) (acc : List RepoRecord)
    (h : ¬ (acc.length < 50 ∧ page ≤ 5)) :
    fetchCollaboratorLoop w u page base acc = (acc, 0) := by
  conv_lhs => rw [fetchCollaboratorLoop]
  rw [if_neg h]

/-- A non-fork collaborator page entry. -/
def plainRepoJson (i : Nat) : RepoJson :=
  { name := "r" ++ toString i, full_name := "octocat/r" ++ toString i, description := none,
    html_url := "", language := none, stargazers_count := 0, forks_count := 0,
    updated_at := "2024-01-01T00:00:00Z", owner_login := "alice", fork := false,
    source := none }

/-- A full collaborator page: 30 non-fork repositories, the per-page
maximum the endpoint is asked for. -/
def bigCollabBody : List RepoJson :=
  (List.range 30).map plainRepoJson

/-- A world whose collaborator endpoint returns a full 30-repo page on
pages 1 and 2 and nothing afterwards. -/
def worldBigCollab : World :=
  { trivialWorld with
    collabPages := fun p =>
      if p ≤ 2 then { status := 200, body := bigCollabBody } else emptyPage }

theorem processCollabPage_plain (w : World) (u : String) :
    ∀ (rs : List RepoJson) (base : List String), (∀ r ∈ rs, r.fork = false) →
    processCollabPage w u rs base = (rs.map (fun r => mkCollaboratorRecord r u), base) := by
  intro rs
  induction rs with
  | nil =>
    intro base _
    simp [processCollabPage]
  | cons r rs ih =>
    intro base hplain
    unfold processCollabPage
    have hr : r.fork = false := hplain r (List.mem_cons_self _ _)
    have hinj : collabInject w r base = ([], base) := by
      unfold collabInject
      rw [if_neg (by simp [hr])]
    rw [hinj]
    dsimp only
    rw [ih base (fun x hx => hplain x (List.mem_cons_of_mem _ hx))]
    simp

theorem bigCollabBody_plain : ∀ r ∈ bigCollabBody, r.fork = false := by
  intro r hr
  simp only [bigCollabBody, List.mem_map] at hr
  obtain ⟨i, _, rfl⟩ := hr
  rfl

theorem bigCollabBody_ne : bigCollabBody ≠ [] := by
  simp [bigCollabBody, List.range_succ]

theorem bigCollabBody_map_length :
    (bigCollabBody.map (fun r => mkCollaboratorRecord r "octocat")).length = 30 := by
  simp [bigCollabBody]

/-! ## Claim C7 -/

/-- C7 counterexample: in `worldBigCollab` one invocation of the
Collaborator fetcher on an empty bucket adds 60 items — the loop guard
`len(repositories) < 50` is only checked before each page request, so page
2 (requested while the bucket held 30 items) overshoots the 50-item cap.
This refutes the claim that one invocation adds at most 50 items. -/
theorem c7_counterexample :
    (fetchCollaboratorLoop worldBigCollab "octocat" 1 [] []).1.length = 60 ∧
    50 < (fetchCollaboratorLoop worldBigCollab "octocat" 1 [] []).1.length := by
  have hp1 : processCollabPage worldBigCollab "octocat" bigCollabBody [] =
      (bigCollabBody.map (fun r => mkCollaboratorRecord r "octocat"), []) :=
    processCollabPage_plain _ _ _ _ bigCollabBody_plain
  have e1 := fetchCollaboratorLoop_step worldBigCollab "octocat" 1 [] []
      (by simp) rfl bigCollabBody_ne
  rw [show (worldBigCollab.collabPages 1).body = bigCollabBody from rfl, hp1] at e1
  dsimp only at e1
  have e2 := fetchCollaboratorLoop_step worldBigCollab "octocat" 2 []
      ([] ++ bigCollabBody.map (fun r => mkCollaboratorRecord r "octocat"))
      (⟨by simp [bigCollabBody], by omega⟩) rfl bigCollabBody_ne
  rw [show (worldBigCollab.collabPages 2).body = bigCollabBody from rfl, hp1] at e2
  dsimp only at e2
  have e3 := fetchCollaboratorLoop_stop worldBigCollab "octocat" 3 []
      (([] ++ bigCollabBody.map (fun r => mkCollaboratorRecord r "octocat")) ++
        bigCollabBody.map (fun r => mkCollaboratorRecord r "octocat"))
      (by rintro ⟨h1, -⟩; simp [bigCollabBody] at h1)
  rw [e1]
  dsimp only
  rw [e2]
  dsimp only
  rw [e3]
  dsimp only
  simp [bigCollabBody]

/-- C7 amended: one invocation of the Collaborator fetcher requests at most
5 pages, but the 50-item threshold is only a loop guard evaluated before
each page request: the fetcher stops paginating once its bucket holds 50
items yet the final page may overshoot, so (with the requested 30 repos per
page, each contributing the repo plus at most one fork-upstream injection)
the bucket is only bounded by `max (initial length) 109`; the 50-item cap
does not bound the number of records the fetcher itself contributes. -/
theorem c7_collaborator_caps (w : World) (u : String) (init : List RepoRecord)
    (h30 : ∀ p : Nat, (w.collabPages p).body.length ≤ 30) :
    (fetchCollaboratorLoop w u 1 [] init).2 ≤ 5 ∧
    (fetchCollaboratorLoop w u 1 [] init).1.length ≤ max init.length 109 := by
  refine ⟨?_, fetchCollaboratorLoop_length w u h30 1 [] init⟩
  have := fetchCollaboratorLoop_pages w u 1 [] init
  omega

/-- C7 amended-witness: the amended statement evaluated in the trivial
world. -/
theorem c7_collaborator_caps_witness :
    (fetchCollaboratorLoop trivialWorld "octocat" 1 [] []).2 ≤ 5 ∧
    (fetchCollaboratorLoop trivialWorld "octocat" 1 [] []).1.length ≤
      max ([] : List RepoRecord).length 109 :=
  c7_collaborator_caps trivialWorld "octocat" []
    (fun p => by simp [trivialWorld, emptyPage])
